import Mathlib

/-!
Verification development for the VC4C optimization and analysis core.

The definitions below are shallow embeddings of the code in
`src/src/optimization/Optimizer.cpp`, `src/src/intermediate/Helper.cpp`,
`src/src/normalization/AddressCalculation.cpp` and
`src/src/analysis/Analysis.h`.  Machine integers are modelled as `Nat`
(32-bit register contents, reduced `% 2^32` where the hardware wraps) or
as `Int` restricted to the `int32_t` range.  Fallible code returns
`Except`/`Option`; IR mutation is modelled by explicit result records.
-/

/-! ## Pass manager (`src/src/optimization/Optimizer.cpp`) -/

/-- The phase tag of an optimization pass (`OptimizationType` in `Optimizer.h`). -/
inductive OptimizationType where
  | INITIAL
  | REPEAT
  | FINAL
deriving DecidableEq, Repr

/-- The optimization level (`OptimizationLevel` in `config.h`),
ordered `NONE ≤ BASIC ≤ MEDIUM ≤ FULL`. -/
inductive OptimizationLevel where
  | NONE
  | BASIC
  | MEDIUM
  | FULL
deriving DecidableEq, Repr

/-- Numeric rank of an optimization level, giving the order
`NONE ≤ BASIC ≤ MEDIUM ≤ FULL` used by the level cascade. -/
def OptimizationLevel.rank : OptimizationLevel → Nat
  | .NONE => 0
  | .BASIC => 1
  | .MEDIUM => 2
  | .FULL => 3

/-- An optimization pass of the static catalog: its name, its user-visible
parameter name and its phase (`OptimizationPass` without the action closure). -/
structure OptimizationPass where
  name : String
  parameterName : String
  type : OptimizationType
deriving DecidableEq, Repr

/-- The static pass catalog `Optimizer::ALL_PASSES`
(`Optimizer.cpp`, lines 238-306), in catalog order. -/
def ALL_PASSES : List OptimizationPass := [
  ⟨"AddWorkGroupLoops", "loop-work-groups", .INITIAL⟩,
  ⟨"ReorderBasicBlocks", "reorder-blocks", .INITIAL⟩,
  ⟨"SimplifyConditionalBlocks", "simplify-conditionals", .INITIAL⟩,
  ⟨"SimplifyBranches", "simplify-branches", .INITIAL⟩,
  ⟨"MergeBasicBlocks", "merge-blocks", .INITIAL⟩,
  ⟨"VectorizeLoops", "vectorize-loops", .INITIAL⟩,
  ⟨"SingleSteps", "single-steps", .REPEAT⟩,
  ⟨"CombineRotations", "combine-rotations", .REPEAT⟩,
  ⟨"EliminateMoves", "eliminate-moves", .REPEAT⟩,
  ⟨"CommonSubexpressionElimination", "eliminate-common-subexpressions", .REPEAT⟩,
  ⟨"EliminateBitOperations", "eliminate-bit-operations", .REPEAT⟩,
  ⟨"PropagateMoves", "copy-propagation", .REPEAT⟩,
  ⟨"RemoveFlags", "remove-unused-flags", .REPEAT⟩,
  ⟨"EliminateDeadCode", "eliminate-dead-code", .REPEAT⟩,
  ⟨"CompressWorkGroupInfo", "compress-work-group-info", .FINAL⟩,
  ⟨"SplitReadAfterWrites", "split-read-write", .FINAL⟩,
  ⟨"CombineConstantLoads", "combine-loads", .FINAL⟩,
  ⟨"RemoveConstantLoadInLoops", "extract-loads-from-loops", .FINAL⟩,
  ⟨"CacheAcrossWorkGroup", "work-group-cache", .FINAL⟩,
  ⟨"InstructionScheduler", "schedule-instructions", .FINAL⟩,
  ⟨"ReorderInstructions", "reorder", .FINAL⟩,
  ⟨"CombineALUIinstructions", "combine", .FINAL⟩]

/-- Names inserted only at level `FULL` by `Optimizer::getPasses`
(`Optimizer.cpp`, lines 313-321). -/
def fullLevelNames : List String :=
  ["vectorize-loops", "extract-loads-from-loops", "schedule-instructions",
   "work-group-cache", "eliminate-common-subexpressions", "simplify-conditionals"]

/-- Names inserted at level `MEDIUM` (before falling through to `BASIC`)
by `Optimizer::getPasses` (`Optimizer.cpp`, lines 323-329). -/
def mediumLevelNames : List String :=
  ["merge-blocks", "combine-rotations", "eliminate-moves",
   "eliminate-bit-operations", "copy-propagation", "combine-loads"]

/-- Names inserted at level `BASIC` (before falling through to `NONE`)
by `Optimizer::getPasses` (`Optimizer.cpp`, lines 331-339). -/
def basicLevelNames : List String :=
  ["reorder-blocks", "simplify-branches", "eliminate-dead-code", "single-steps",
   "reorder", "combine", "remove-unused-flags", "loop-work-groups"]

/-- Names inserted at every level including `NONE` by `Optimizer::getPasses`
(`Optimizer.cpp`, line 344). -/
def noneLevelNames : List String := ["split-read-write"]

/-- `Optimizer::getPasses` (`Optimizer.cpp`, lines 308-351): the level-selected
pass parameter names, with the `FALL_THROUGH` cascade of the `switch`. -/
def getPasses : OptimizationLevel → List String
  | .NONE => noneLevelNames
  | .BASIC => basicLevelNames ++ noneLevelNames
  | .MEDIUM => mediumLevelNames ++ (basicLevelNames ++ noneLevelNames)
  | .FULL => fullLevelNames ++ (mediumLevelNames ++ (basicLevelNames ++ noneLevelNames))

/-- The configuration fields consumed by the `Optimizer` constructor and the
pass driver (`Configuration` in `config.h`). -/
structure Configuration where
  optimizationLevel : OptimizationLevel
  additionalEnabledOptimizations : List String
  additionalDisabledOptimizations : List String
  maxOptimizationIterations : Nat

/-- The passes selected by the `Optimizer` constructor
(`Optimizer.cpp`, lines 119-134): walk `ALL_PASSES` in catalog order, skip
passes in the disabled set, keep passes in the enabled set or in the
level-selected set. -/
def selectedPasses (config : Configuration) : List OptimizationPass :=
  let enabledPasses := getPasses config.optimizationLevel
  ALL_PASSES.filter fun p =>
    !config.additionalDisabledOptimizations.contains p.parameterName &&
      (config.additionalEnabledOptimizations.contains p.parameterName ||
        enabledPasses.contains p.parameterName)

/-- The parameter names of the selected passes, in catalog order. -/
def selectedPassNames (config : Configuration) : List String :=
  (selectedPasses config).map (·.parameterName)

/-- The repeat-phase vector built by `addToPasses`
(`Optimizer.cpp`, lines 100-117): the selected passes of phase `REPEAT`,
in catalog order. -/
def repeatingPasses (config : Configuration) : List OptimizationPass :=
  (selectedPasses config).filter (fun p => p.type = OptimizationType.REPEAT)

/-- The stable user-facing pass identifier list of spec §6, stated from the
spec's words for comparison against the catalog (refinement reference). -/
def specPassIdentifierList : List String :=
  ["loop-work-groups", "reorder-blocks", "simplify-conditionals", "simplify-branches",
   "merge-blocks", "vectorize-loops", "single-steps", "combine-rotations",
   "eliminate-moves", "eliminate-common-subexpressions", "eliminate-bit-operations",
   "copy-propagation", "remove-unused-flags", "eliminate-dead-code",
   "compress-work-group-info", "split-read-write", "combine-loads",
   "extract-loads-from-loops", "work-group-cache", "schedule-instructions",
   "reorder", "combine"]

/-!
The fixed-point loop of `runOptimizationPasses` (`Optimizer.cpp`, lines
168-190).  Passes are identified by their index into the repeat vector; the
behaviour of a pass is abstracted as a function `run : Nat → Nat → Bool`,
where `run p k` is the changed-flag returned by pass `p` on its `k`-th
invocation (counting from 0).  `counts` tracks how often each pass has run,
so a pass whose result depends on the number of prior invocations (as in the
spec's scenarios) is expressible.  The trace of one outer iteration is the
list of `(pass, returned flag)` in execution order.
-/

/-- One iteration of the inner `for(pass : repeatingPasses)` loop
(`Optimizer.cpp`, lines 178-189).  Returns the executed `(pass, changed)`
trace of this iteration, the updated `lastChangingOptimization`, the updated
invocation counts, and the `continueLoop` flag (`false` iff the loop hit
`lastChangingOptimization == pass` and broke). -/
def runRepeatIteration (run : Nat → Nat → Bool) :
    List Nat → Option Nat → (Nat → Nat) →
    List (Nat × Bool) × Option Nat × (Nat → Nat) × Bool
  | [], last, counts => ([], last, counts, true)
  | p :: rest, last, counts =>
    if last = some p then
      ([], last, counts, false)
    else
      let r := run p (counts p)
      let counts2 : Nat → Nat := fun q => if q = p then counts q + 1 else counts q
      let last2 := if r then some p else last
      let rec2 := runRepeatIteration run rest last2 counts2
      ((p, r) :: rec2.1, rec2.2)

/-- The outer `for(; continueLoop && iterationsLeft > 0; --iterationsLeft)`
loop (`Optimizer.cpp`, line 172): returns the list of per-iteration traces
and the final value of `iterationsLeft`.  The decrement happens after each
iteration body, also when the body set `continueLoop` to `false`. -/
def runRepeatLoop (run : Nat → Nat → Bool) (passes : List Nat) :
    Nat → Bool → Option Nat → (Nat → Nat) →
    List (List (Nat × Bool)) × Nat
  | 0, _, _, _ => ([], 0)
  | n + 1, cont, last, counts =>
    if cont then
      let step := runRepeatIteration run passes last counts
      let rest := runRepeatLoop run passes n step.2.2.2 step.2.1 step.2.2.1
      (step.1 :: rest.1, rest.2)
    else
      ([], n + 1)

/-- The repeat phase of `runOptimizationPasses` (`Optimizer.cpp`, lines
168-190): `continueLoop` starts as `!repeatingPasses.empty()`,
`lastChangingOptimization` as null, `iterationsLeft` as the configured
`maxOptimizationIterations`. -/
def runRepeatPhase (run : Nat → Nat → Bool) (passes : List Nat) (maxIter : Nat) :
    List (List (Nat × Bool)) × Nat :=
  runRepeatLoop run passes maxIter (!passes.isEmpty) none (fun _ => 0)

/-- The cap warning condition of `runOptimizationPasses`
(`Optimizer.cpp`, lines 192-197): warn iff `iterationsLeft == 0`, the
configured cap is non-zero and the optimization level is not `NONE`. -/
def capWarningEmitted (level : OptimizationLevel) (maxIter iterationsLeft : Nat) : Prop :=
  iterationsLeft = 0 ∧ maxIter > 0 ∧ level ≠ OptimizationLevel.NONE

instance (level : OptimizationLevel) (maxIter iterationsLeft : Nat) :
    Decidable (capWarningEmitted level maxIter iterationsLeft) := by
  unfold capWarningEmitted; infer_instance

/-- Total number of pass executions recorded in a repeat-phase trace. -/
def totalPassExecutions (trace : List (List (Nat × Bool))) : Nat :=
  (trace.map List.length).sum

/-- The pass behaviour of spec scenario 3 (claim C1): pass 0 (`A`) returns
`true` exactly on its first invocation, pass 1 (`B`) always returns `false`. -/
def scenarioThreeRun : Nat → Nat → Bool := fun p k => p == 0 && k == 0

/-- The pass behaviour of spec scenario 4 (claim C6): the single pass always
returns `true`. -/
def scenarioFourRun : Nat → Nat → Bool := fun _ _ => true

/-! ## Transformation kit: value and type model (`src/src/intermediate/Helper.cpp`)

32-bit register contents are `Nat` values below `2^32`; `int32_t` literals
are `Int` values in `[-2^31, 2^31)`.
-/

/-- `2^32`, the number of 32-bit register states. -/
def words32 : Nat := 2 ^ 32

/-- Wrap an integer into the `int32_t` range `[-2^31, 2^31)`
(two's-complement convention). -/
def wrap32 (x : Int) : Int := (x + 2 ^ 31) % 2 ^ 32 - 2 ^ 31

/-- The unsigned 32-bit register content representing an `int32_t` value. -/
def toWord (x : Int) : Nat := (x % 2 ^ 32).toNat

/-- Arithmetic shift right of a 32-bit register value by `n` bits: the sign
bit (bit 31) is replicated into the vacated positions. -/
def asr32 (x n : Nat) : Nat :=
  if x < 2 ^ 31 then x >>> n else (x >>> n) + (words32 - words32 >>> n)

/-- 32-bit subtraction `a - b` on register values, with wrap-around. -/
def sub32 (a b : Nat) : Nat := (a + (words32 - b % words32)) % words32

/-- The address space of a pointer type (`AddressSpace` in the IR substrate). -/
inductive AddressSpace where
  | GENERIC
  | PRIVATE
  | GLOBAL
  | CONSTANT
  | LOCAL
deriving DecidableEq, Repr

/-- The `DataType` variant of the IR substrate (spec §3): scalar bit-widths,
vectors, pointers (with address space), arrays and structs. -/
inductive DataType where
  | scalar (bits : Nat)
  | pointer (elem : DataType) (addressSpace : AddressSpace)
  | array (elem : DataType) (size : Nat)
  | structT (fields : List DataType)
  | vector (elem : DataType) (width : Nat)
deriving Repr

mutual

/-- Structural equality test on `DataType`, modelling the substrate's
`operator!=` used by `insertCalculateIndices`'s final type check. -/
def DataType.beq : DataType → DataType → Bool
  | .scalar a, .scalar b => a == b
  | .pointer e a, .pointer f b => DataType.beq e f && a == b
  | .array e n, .array f m => DataType.beq e f && n == m
  | .structT fs, .structT gs => DataType.beqFields fs gs
  | .vector e n, .vector f m => DataType.beq e f && n == m
  | _, _ => false

/-- Field-wise equality of struct field lists (helper of `DataType.beq`). -/
def DataType.beqFields : List DataType → List DataType → Bool
  | [], [] => true
  | x :: xs, y :: ys => DataType.beq x y && DataType.beqFields xs ys
  | _, _ => false

end

mutual

/-- Modelled from the spec: the substrate's physical (packed) width in bytes
of a type (`DataType::getPhysicalWidth`, external to `src/`). -/
def DataType.getPhysicalWidth : DataType → Nat
  | .scalar bits => bits / 8
  | .pointer _ _ => 4
  | .array e n => n * e.getPhysicalWidth
  | .structT fields => DataType.fieldsPhysicalWidth fields
  | .vector e n => n * e.getPhysicalWidth

/-- Sum of the physical widths of a struct's fields
(helper of `DataType.getPhysicalWidth`). -/
def DataType.fieldsPhysicalWidth : List DataType → Nat
  | [] => 0
  | f :: fs => f.getPhysicalWidth + DataType.fieldsPhysicalWidth fs

end

/-- The element type projection of a pointer, array or vector type
(`DataType::getElementType`, external substrate). -/
def DataType.getElementType : DataType → DataType
  | .pointer e _ => e
  | .array e _ => e
  | .vector e _ => e
  | t => t

/-- Modelled from the spec: the substrate's byte offset of struct field `i`
(`StructType::getStructSize`, external to `src/`), as packed field offsets. -/
def structOffsetOfField (fields : List DataType) (i : Int) : Int :=
  (((fields.take i.toNat).map (fun f => (f.getPhysicalWidth : Int)))).sum

/-! ### Sign normalization (`insertMakePositive` / `insertRestoreSign`,
`Helper.cpp` lines 21-130) -/

/-- The source value classification driving the `if`-chain of
`insertMakePositive`: a scalar literal, a vector literal, a local whose
single writer carries `UNSIGNED_RESULT`, or any other local (with its
scalar bit count). -/
inductive MPSource where
  | litS (n : Int)
  | vecS (ns : List Int)
  | localUnsigned
  | localPlain (bits : Nat)
deriving DecidableEq, Repr

/-- A value produced by `insertMakePositive`: a literal, a vector literal,
the unchanged source value, or a freshly added local written by the emitted
instructions. -/
inductive MPValue where
  | litV (n : Int)
  | vecV (ns : List Int)
  | srcV
  | freshV
deriving DecidableEq, Repr

/-- The outputs of `insertMakePositive`: the `dest` value, the
`writeIsNegative` value and the number of emitted instructions. -/
structure MPResult where
  dest : MPValue
  isNegative : MPValue
  emitted : Nat
deriving DecidableEq, Repr

/-- The literal denoted by an `insertMakePositive` output value, given the
source literal `src`: `srcV` denotes the unchanged source, `litV`/`vecV`
their own content (scalar only), fresh locals none. -/
def MPValue.asLit (src : Int) : MPValue → Option Int
  | .litV n => some n
  | .srcV => some src
  | _ => none

/-- One lane of the static vector computation of `insertMakePositive`
(`Helper.cpp` lines 36-39): the absolute value with `int32_t` wrap. -/
def makePositiveLane (e : Int) : Int := if e < 0 then wrap32 (-e) else e

/-- One lane of the static `writeIsNegative` vector
(`Helper.cpp` line 39): `-1` for a negative lane, `0` otherwise. -/
def isNegativeLane (e : Int) : Int := if e < 0 then -1 else 0

/-- `intermediate::insertMakePositive` (`Helper.cpp`, lines 21-93).
Literals and vector literals are computed statically with no emitted
instructions; a local already known `UNSIGNED_RESULT` is passed through;
otherwise the branchless `asr`/`xor`/`sub` sequence is emitted (three
instructions, preceded by a sign extension when the source is narrower
than 32 bits — the extension itself, `insertSignExtension`, is modelled
from the spec as one emitted instruction since `TypeConversions.cpp` is
not part of `src/`). -/
def insertMakePositive : MPSource → MPResult
  | .litS n =>
    if n < 0 then ⟨.litV (wrap32 (-n)), .litV (-1), 0⟩ else ⟨.srcV, .litV 0, 0⟩
  | .vecS ns => ⟨.vecV (ns.map makePositiveLane), .vecV (ns.map isNegativeLane), 0⟩
  | .localUnsigned => ⟨.srcV, .litV 0, 0⟩
  | .localPlain bits => ⟨.freshV, .freshV, (if bits < 32 then 1 else 0) + 3⟩

/-- The static fold of `insertRestoreSign` (`Helper.cpp`, line 100), taken
when both `src` and `sign` are literals: `src` if the sign mask is zero,
else the negated literal with `int32_t` wrap. -/
def restoreSignLit (src sign : Int) : Int := if sign = 0 then src else wrap32 (-src)

/-- Runtime semantics of the instruction sequence emitted by the dynamic
branch of `insertMakePositive` (`Helper.cpp`, lines 73-90) on a 32-bit
register value: `sign = asr(src, 31)`, `tmp = src xor sign`,
`dest = tmp - sign`.  Returns `(dest, sign)`. -/
def makePositiveDyn (x : Nat) : Nat × Nat :=
  let sign := asr32 x 31
  let tmp := x ^^^ sign
  (sub32 tmp sign, sign)

/-- Runtime semantics of the instruction sequence emitted by the dynamic
branch of `insertRestoreSign` (`Helper.cpp`, lines 103-127):
`tmp = src xor sign`, `dest = tmp - sign`. -/
def restoreSignDyn (src sign : Nat) : Nat := sub32 (src ^^^ sign) sign

/-- Modelled from the spec: sign extension of a `w`-bit register value to
32 bits (`insertSignExtension` of `TypeConversions.cpp` is not part of
`src/`; spec §4.2 "sign-extend to 32 bits if narrower"). -/
def signExtendTo32 (w x : Nat) : Nat :=
  if x < 2 ^ (w - 1) then x else x + (words32 - 2 ^ w)

/-- Runtime semantics of the dynamic `insertMakePositive` branch for a
source narrower than 32 bits: the source is sign-extended first
(`Helper.cpp`, lines 75-80). -/
def makePositiveDynNarrow (w x : Nat) : Nat × Nat := makePositiveDyn (signExtendTo32 w x)

/-! ### Index calculation (`insertCalculateIndices`, `Helper.cpp` lines 132-250) -/

/-- An index value passed to `insertCalculateIndices`: a literal or a
non-literal (named local). -/
inductive CIndexVal where
  | litI (n : Int)
  | localI (name : String)
deriving DecidableEq, Repr

/-- `Value::isZeroInitializer` on an index value: true exactly for the
literal `0`. -/
def CIndexVal.isZeroInitializer : CIndexVal → Bool
  | .litI 0 => true
  | _ => false

/-- A container/destination value of `insertCalculateIndices`: a named
local with its type. -/
structure CIValue where
  localName : String
  ty : DataType

/-- The failure modes of `insertCalculateIndices`: the unchecked
`indices.at(0)` access (`std::out_of_range`), a non-literal struct index,
an invalid container type, the final type check, and the unguarded
`container.type.getPointerType()->addressSpace` access. -/
inductive CalcError where
  | OutOfRange
  | NonLiteralStructIndex
  | InvalidContainerType
  | TypeMismatch
  | PointerTypeAccess
deriving DecidableEq, Repr

/-- The running `offset` of the index loop: a literal or a value computed
by emitted instructions. -/
inductive OffsetVal where
  | litO (n : Int)
  | symO
deriving DecidableEq, Repr

/-- `Value::isZeroInitializer` on the running offset. -/
def OffsetVal.isZeroInitializer : OffsetVal → Bool
  | .litO 0 => true
  | _ => false

/-- Modelled from the spec: the sentinel reference index `ANY_ELEMENT` for
an indeterminate element (its defining header is not part of `src/`). -/
def ANY_ELEMENT : Int := -1

/-- `index.getLiteralValue().value_or(Literal(ANY_ELEMENT)).signedInt()`
(`Helper.cpp`, line 226): the literal index if the chosen index value is a
literal, else `ANY_ELEMENT` (also for the `UNDEFINED_VALUE` sentinel,
modelled as `none`). -/
def refIndexOf : Option CIndexVal → Int
  | some (.litI n) => n
  | _ => ANY_ELEMENT

/-- The reference-index selection of `insertCalculateIndices`
(`Helper.cpp`, lines 221-226): start from the single index if there is
exactly one; if `firstIndexIsElement` holds and the first index is zero,
replace it by the second index (or `UNDEFINED_VALUE` if there is none).
The `indices.at(0)` access is evaluated whenever `firstIndexIsElement`
holds and throws `std::out_of_range` on an empty index list. -/
def computeRefIndex (indices : List CIndexVal) (firstIndexIsElement : Bool) :
    Except CalcError Int :=
  let index0 : Option CIndexVal := if indices.length = 1 then indices.head? else none
  if firstIndexIsElement then
    match indices with
    | [] => .error .OutOfRange
    | i0 :: rest =>
      if i0.isZeroInitializer then
        .ok (refIndexOf (if indices.length > 1 then rest.head? else none))
      else
        .ok (refIndexOf index0)
  else
    .ok (refIndexOf index0)

/-- The state threaded through the index loop: the running offset, the
running sub-container type and the number of emitted instructions. -/
structure CalcLoopState where
  offset : OffsetVal
  subContainerType : DataType
  emitted : Nat

/-- The offset-combination logic at the end of each loop step
(`Helper.cpp`, lines 190-209): fold literal offsets statically, elide the
addition when either side is a zero literal, otherwise emit an `add`. -/
def combineOffset (offset subOffset : OffsetVal) (emitted : Nat) : OffsetVal × Nat :=
  match offset, subOffset with
  | .litO a, .litO b => (.litO (wrap32 (a + b)), emitted)
  | _, _ =>
    if offset.isZeroInitializer then (subOffset, emitted)
    else if subOffset.isZeroInitializer then (offset, emitted)
    else (.symO, emitted + 1)

/-- One step of the index loop of `insertCalculateIndices`
(`Helper.cpp`, lines 138-210), dispatching on the running sub-container
type; `isFirst` tells whether this index is `indices.front()`. -/
def calcIndexStep (firstIndexIsElement isFirst : Bool) (index : CIndexVal)
    (st : CalcLoopState) : Except CalcError CalcLoopState :=
  match st.subContainerType with
  | .pointer elem _ =>
    let res := match index with
      | .litI n => (OffsetVal.litO (wrap32 (n * (elem.getPhysicalWidth : Int))), st.emitted)
      | .localI _ => (OffsetVal.symO, st.emitted + 1)
    let subTy := if !firstIndexIsElement || !isFirst then elem else st.subContainerType
    let comb := combineOffset st.offset res.1 res.2
    .ok ⟨comb.1, subTy, comb.2⟩
  | .array elem _ =>
    let res := match index with
      | .litI n => (OffsetVal.litO (wrap32 (n * (elem.getPhysicalWidth : Int))), st.emitted)
      | .localI _ => (OffsetVal.symO, st.emitted + 1)
    let subTy := if !firstIndexIsElement || !isFirst then elem else st.subContainerType
    let comb := combineOffset st.offset res.1 res.2
    .ok ⟨comb.1, subTy, comb.2⟩
  | .structT fields =>
    match index with
    | .litI n =>
      let subOffset := OffsetVal.litO (structOffsetOfField fields n)
      let subTy := (fields.getD n.toNat (.scalar 0))
      let comb := combineOffset st.offset subOffset st.emitted
      .ok ⟨comb.1, subTy, comb.2⟩
    | .localI _ => .error .NonLiteralStructIndex
  | .vector elem _ =>
    let res := match index with
      | .litI n => (OffsetVal.litO (wrap32 (n * (elem.getPhysicalWidth : Int))), st.emitted)
      | .localI _ => (OffsetVal.symO, st.emitted + 1)
    let comb := combineOffset st.offset res.1 res.2
    .ok ⟨comb.1, elem, comb.2⟩
  | .scalar _ => .error .InvalidContainerType

/-- The index loop of `insertCalculateIndices` over all indices. -/
def calcIndicesLoop (firstIndexIsElement : Bool) :
    List CIndexVal → Bool → CalcLoopState → Except CalcError CalcLoopState
  | [], _, st => .ok st
  | idx :: rest, isFirst, st =>
    match calcIndexStep firstIndexIsElement isFirst idx st with
    | .error e => .error e
    | .ok st2 => calcIndicesLoop firstIndexIsElement rest false st2

/-- The expected final type computed at the end of `insertCalculateIndices`
(`Helper.cpp`, lines 229-237): arrays decay to a pointer to their element
type; otherwise a pointer to the final sub-container type is formed (via
the unguarded `container.type.getPointerType()->addressSpace`), except
when `firstIndexIsElement` holds and there was exactly one index. -/
def calcFinalType (container : CIValue) (indicesLen : Nat)
    (firstIndexIsElement : Bool) (subContainerType : DataType) :
    Except CalcError DataType :=
  match subContainerType with
  | .array elem _ =>
    let addrSpace := match container.ty with
      | .pointer _ a => a
      | _ => AddressSpace.PRIVATE
    .ok (.pointer elem addrSpace)
  | _ =>
    if !(firstIndexIsElement && indicesLen = 1) then
      match container.ty with
      | .pointer _ a => .ok (.pointer subContainerType a)
      | _ => .error .PointerTypeAccess
    else
      .ok subContainerType

/-- The observable outcome of `insertCalculateIndices`: how many
instructions were emitted before returning or failing, the reference pair
assigned to `dest`'s local (if execution reached the assignment), and the
error if one was raised. -/
structure CalcOutcome where
  emitted : Nat
  refAssigned : Option (String × Int)
  err : Option CalcError
deriving DecidableEq, Repr

/-- `intermediate::insertCalculateIndices` (`Helper.cpp`, lines 132-250).
The final `assign(it, dest) = container + offset` always emits one
instruction (spec §4.2: "Emit `dest = container + offset` as the final
instruction"; the `operators.h` assignment DSL is not part of `src/` and
is modelled from the spec).  The reference pair is assigned before the
final type check, so a `TypeMismatch` failure still assigns it. -/
def insertCalculateIndices (container dest : CIValue) (indices : List CIndexVal)
    (firstIndexIsElement : Bool) : CalcOutcome :=
  match calcIndicesLoop firstIndexIsElement indices true
      ⟨.litO 0, container.ty, 0⟩ with
  | .error e => ⟨0, none, some e⟩
  | .ok st =>
    let emitted := st.emitted + 1
    match computeRefIndex indices firstIndexIsElement with
    | .error e => ⟨emitted, none, some e⟩
    | .ok refIndex =>
      let refAssigned := some (container.localName, refIndex)
      match calcFinalType container indices.length firstIndexIsElement
          st.subContainerType with
      | .error e => ⟨emitted, refAssigned, some e⟩
      | .ok finalType =>
        if dest.ty.beq finalType then ⟨emitted, refAssigned, none⟩
        else ⟨emitted, refAssigned, some .TypeMismatch⟩

/-! ### Byte swap (`insertByteSwap`, `Helper.cpp` lines 252-309) -/

/-- 32-bit left shift of a register value (`shl`), with wrap-around. -/
def shl32 (x n : Nat) : Nat := (x <<< n) % words32

/-- 32-bit rotate right of a register value (`OP_ROR`): the low `n` bits
wrap around to the top. -/
def ror32 (x n : Nat) : Nat := ((x >>> n) ||| shl32 x (32 - n)) % words32

/-- The 16-bit byte-swap instruction sequence of `insertByteSwap`
(`Helper.cpp`, lines 264-277): shift right 8, shift left 8, mask `0xFF`,
mask `0xFF00`, or. -/
def byteSwap16 (src : Nat) : Nat :=
  let tmpA0 := src >>> 8
  let tmpB0 := shl32 src 8
  let tmpA1 := tmpA0 &&& 0x000000FF
  let tmpB1 := tmpB0 &&& 0x0000FF00
  tmpA1 ||| tmpB1

/-- The 32-bit byte-swap instruction sequence of `insertByteSwap`
(`Helper.cpp`, lines 279-302): `ror 24`, `ror 16`, four byte masks, two
partial ors and the final or. -/
def byteSwap32 (src : Nat) : Nat :=
  let tmpAC0 := ror32 src 24
  let tmpBD0 := ror32 src 16
  let tmpA1 := tmpAC0 &&& 0x000000FF
  let tmpB1 := tmpBD0 &&& 0x0000FF00
  let tmpC1 := tmpAC0 &&& 0x00FF0000
  let tmpD1 := tmpBD0 &&& 0xFF000000
  let tmpAB2 := tmpA1 ||| tmpB1
  let tmpCD2 := tmpC1 ||| tmpD1
  tmpAB2 ||| tmpCD2

/-- `intermediate::insertByteSwap` (`Helper.cpp`, lines 252-309):
dispatch on `numBytes = scalarBitCount / 8`; 2 bytes and 4 bytes are
handled, anything else raises the unsupported-width error. -/
def insertByteSwap (scalarBitCount : Nat) (src : Nat) : Except String Nat :=
  let numBytes := scalarBitCount / 8
  if numBytes = 2 then .ok (byteSwap16 src)
  else if numBytes = 4 then .ok (byteSwap32 src)
  else .error "UnsupportedWidth"

instance {e a : Type} [DecidableEq e] [DecidableEq a] : DecidableEq (Except e a) :=
  fun x y =>
    match x, y with
    | .ok u, .ok v =>
      if h : u = v then isTrue (by rw [h]) else isFalse (by simp [h])
    | .error u, .error v =>
      if h : u = v then isTrue (by rw [h]) else isFalse (by simp [h])
    | .ok _, .error _ => isFalse (fun h => Except.noConfusion h)
    | .error _, .ok _ => isFalse (fun h => Except.noConfusion h)

/-- The idealized byte reversal of a 32-bit value (the `llvm.bswap.i32`
semantics quoted in the source's own documentation comment:
bytes `0 1 2 3` return in order `3 2 1 0`), stated from the spec for
comparison with `byteSwap32`. -/
def bswap32Spec (x : Nat) : Nat :=
  (x >>> 24) &&& 0xFF ||| ((x >>> 16) &&& 0xFF) <<< 8 |||
    ((x >>> 8) &&& 0xFF) <<< 16 ||| (x &&& 0xFF) <<< 24

/-! ## Address lowering (`src/src/normalization/AddressCalculation.cpp`) -/

/-- A symbolic value of the work-item-offset calculation: a named dynamic
part, the `add` of two values, or a value shifted left by a literal. -/
inductive AExpr where
  | base (name : String)
  | addE (a b : AExpr)
  | shlE (a : AExpr) (n : Nat)
deriving DecidableEq, Repr

/-- Decorations are a small closed flag set; modelled as a bitmask with
intersection `&&&` (`intersect_flags`). -/
abbrev Decorations := Nat

/-- A pre-analyzed `MemoryAccessRange` as consumed by
`insertAddressToWorkItemSpecificOffset`: the optional constant offset (an
`Optional<Value>`, whose truth test is presence), the dynamic address
parts (value → decoration bitset; the `FastMap` is modelled as a list in
iteration order), and the optional type-size shift count (taken from
argument 1 of the recorded shift instruction). -/
structure MemoryAccessRange where
  constantOffset : Option Int
  dynamicAddressParts : List (AExpr × Decorations)
  typeSizeShift : Option Nat

/-- The `while` loop of `combineAdditions` (`AddressCalculation.cpp`,
lines 104-117), carrying the optional `prevResult`: the first entry seeds
the accumulator, every further entry is combined with `add` and
`intersect_flags`. -/
def combineAdditionsLoop : Option (AExpr × Decorations) → List (AExpr × Decorations) →
    Option (AExpr × Decorations)
  | prev, [] => prev
  | none, x :: rest => combineAdditionsLoop (some x) rest
  | some p, x :: rest =>
    combineAdditionsLoop (some (.addE p.1 x.1, p.2 &&& x.2)) rest

/-- `combineAdditions` (`AddressCalculation.cpp`, lines 99-119): empty map
gives an empty result, otherwise the loop above. -/
def combineAdditions (addedValues : List (AExpr × Decorations)) :
    Option (AExpr × Decorations) :=
  if addedValues.isEmpty then none else combineAdditionsLoop none addedValues

/-- The failure modes of `insertAddressToWorkItemSpecificOffset`: the
explicit `Unimplemented` compilation error, and the dereference of the
empty `Optional` returned by `combineAdditions` when there are no dynamic
parts. -/
inductive WorkItemOffsetError where
  | Unimplemented
  | EmptyOptionalAccess
deriving DecidableEq, Repr

/-- `normalization::insertAddressToWorkItemSpecificOffset`
(`AddressCalculation.cpp`, lines 121-133): fail with `Unimplemented`
whenever `constantOffset` is present (the `if(range.constantOffset)` test
is presence, not non-zeroness); otherwise combine the dynamic parts and,
if a type-size shift is recorded, shift the combined value left by it,
keeping the intersected decorations. -/
def insertAddressToWorkItemSpecificOffset (range : MemoryAccessRange) :
    Except WorkItemOffsetError (AExpr × Decorations) :=
  if range.constantOffset.isSome then .error .Unimplemented
  else
    match combineAdditions range.dynamicAddressParts with
    | none => .error .EmptyOptionalAccess
    | some dynamicParts =>
      match range.typeSizeShift with
      | some n => .ok (.shlE dynamicParts.1 n, dynamicParts.2)
      | none => .ok dynamicParts

/-! ## Analysis framework (`src/src/analysis/Analysis.h`) -/

/-- The traversal direction of a local analysis. -/
inductive AnalysisDirection where
  | FORWARD
  | BACKWARD
deriving DecidableEq, Repr

/-- `LocalAnalysis::analyzeForward` (`Analysis.h`, lines 88-96): traverse
the block from first to last instruction, record
`results[i] = f(i, prev)` and carry the value forward.  Results are an
association list keyed by instruction. -/
def analyzeForward {I V : Type} (f : I → V → V) (initialValue : V)
    (block : List I) : List (I × V) :=
  match block with
  | [] => []
  | i :: rest =>
    let v := f i initialValue
    (i, v) :: analyzeForward f v rest

/-- `LocalAnalysis::analyzeBackward` (`Analysis.h`, lines 98-109): a
`do`-`while` loop stepping `previousInBlock` from the end cursor, so the
step is taken at least once; on an empty block the cursor before `begin`
is invalid, modelled as an error. -/
def analyzeBackward {I V : Type} (f : I → V → V) (initialValue : V)
    (block : List I) : Except String (List (I × V)) :=
  match block.reverse with
  | [] => .error "invalid cursor before block begin"
  | i :: rest => .ok (analyzeForward f initialValue (i :: rest))

/-- `std::unordered_map::at` on the result store: the recorded value for
an instruction, or failure for a non-analyzed instruction. -/
def lookupResult {I V : Type} [DecidableEq I] (results : List (I × V)) (i : I) :
    Option V :=
  (results.find? (fun p => p.1 = i)).map (·.2)

/-- The results of a completed `LocalAnalysis::operator()`: the per
instruction store and the values at block start and end. -/
structure LocalAnalysisResult (I V : Type) where
  results : List (I × V)
  resultAtStart : V
  resultAtEnd : V

/-- `LocalAnalysis::operator()` (`Analysis.h`, lines 48-57): run the
directed traversal, then look up `block.begin().get()` and
`block.end().previousInBlock().get()` in the result store; both lookups
(`std::unordered_map::at`) fail on an empty block, as does the backward
traversal itself. -/
def localAnalysis {I V : Type} [DecidableEq I] (direction : AnalysisDirection)
    (f : I → V → V) (initialValue : V) (block : List I) :
    Except String (LocalAnalysisResult I V) :=
  let resultsE : Except String (List (I × V)) :=
    match direction with
    | .FORWARD => .ok (analyzeForward f initialValue block)
    | .BACKWARD => analyzeBackward f initialValue block
  match resultsE with
  | .error e => .error e
  | .ok results =>
    match block.head?, block.getLast? with
    | some first, some last =>
      match lookupResult results first, lookupResult results last with
      | some atStart, some atEnd => .ok ⟨results, atStart, atEnd⟩
      | _, _ => .error "unordered_map::at: key not found"
    | _, _ => .error "unordered_map::at: key not found"

/-! ## Theorems -/

/-- With `continueLoop == false` the outer loop body never runs and
`iterationsLeft` keeps its value. -/
theorem runRepeatLoop_cont_false (run : Nat → Nat → Bool) (passes : List Nat)
    (n : Nat) (last : Option Nat) (counts : Nat → Nat) :
    runRepeatLoop run passes n false last counts = ([], n) := by
  cases n with
  | zero => rfl
  | succ m => simp [runRepeatLoop]

/-- Unfolding of one executed iteration of the outer loop. -/
theorem runRepeatLoop_succ_true (run : Nat → Nat → Bool) (passes : List Nat)
    (n : Nat) (last : Option Nat) (counts : Nat → Nat) :
    runRepeatLoop run passes (n + 1) true last counts =
      ((runRepeatIteration run passes last counts).1 ::
        (runRepeatLoop run passes n (runRepeatIteration run passes last counts).2.2.2
          (runRepeatIteration run passes last counts).2.1
          (runRepeatIteration run passes last counts).2.2.1).1,
       (runRepeatLoop run passes n (runRepeatIteration run passes last counts).2.2.2
          (runRepeatIteration run passes last counts).2.1
          (runRepeatIteration run passes last counts).2.2.1).2) := rfl

/-- The outer loop executes at most `iterationsLeft` iterations. -/
theorem runRepeatLoop_length_le (run : Nat → Nat → Bool) (passes : List Nat) :
    ∀ (n : Nat) (cont : Bool) (last : Option Nat) (counts : Nat → Nat),
      (runRepeatLoop run passes n cont last counts).1.length ≤ n := by
  intro n
  induction n with
  | zero => intro cont last counts; simp [runRepeatLoop]
  | succ m ih =>
    intro cont last counts
    by_cases h : cont = true
    · subst h
      rw [runRepeatLoop_succ_true]
      simp only [List.length_cons]
      have := ih (runRepeatIteration run passes last counts).2.2.2
        (runRepeatIteration run passes last counts).2.1
        (runRepeatIteration run passes last counts).2.2.1
      omega
    · replace h : cont = false := by revert h; cases cont <;> simp
      subst h
      simp [runRepeatLoop]

/-- The final `iterationsLeft` is the initial one minus the number of
executed outer iterations. -/
theorem runRepeatLoop_iterationsLeft (run : Nat → Nat → Bool) (passes : List Nat) :
    ∀ (n : Nat) (cont : Bool) (last : Option Nat) (counts : Nat → Nat),
      (runRepeatLoop run passes n cont last counts).2 =
        n - (runRepeatLoop run passes n cont last counts).1.length := by
  intro n
  induction n with
  | zero => intro cont last counts; simp [runRepeatLoop]
  | succ m ih =>
    intro cont last counts
    by_cases h : cont = true
    · subst h
      rw [runRepeatLoop_succ_true]
      simp only [List.length_cons]
      rw [ih]
      omega
    · replace h : cont = false := by revert h; cases cont <;> simp
      subst h
      simp [runRepeatLoop]

/-- Claim C1, counterexample: for the repeat catalog `[A, B]` where only
`A` returns `true` and only on its first invocation, the driver's second
outer iteration stops at `A` (because `lastChangingOptimization == A`)
without invoking it, so the trace is `[[(A, true), (B, false)], []]` and
not `[[(A, true), (B, false)], [(A, false)]]` as the claim states. -/
theorem c1FixedPointCounterexample :
    (runRepeatPhase scenarioThreeRun [0, 1] 10).1 = [[(0, true), (1, false)], []] ∧
      (runRepeatPhase scenarioThreeRun [0, 1] 10).1 ≠
        [[(0, true), (1, false)], [(0, false)]] := by
  decide

/-- Claim C1 (amended): for a repeat catalog `[A, B]` where only `A` ever
returns `true` and only on its first invocation, and any iteration cap of
at least 2, the fixed-point loop terminates after exactly two iterations
of the outer loop; iteration 1 runs `A` (true) and `B` (false), and
iteration 2 stops at `A` — because `lastChangingPass == A` — before
invoking it, so neither `A` nor `B` runs again and each pass executes
exactly once in total. -/
theorem c1FixedPointAmended (m : Nat) (h : 2 ≤ m) :
    (runRepeatPhase scenarioThreeRun [0, 1] m).1 = [[(0, true), (1, false)], []] ∧
      totalPassExecutions (runRepeatPhase scenarioThreeRun [0, 1] m).1 = 2 := by
  obtain ⟨k, rfl⟩ : ∃ k, m = k + 2 := ⟨m - 2, by omega⟩
  have h1 : runRepeatIteration scenarioThreeRun [0, 1] none (fun _ => 0) =
      ([(0, true), (1, false)],
        some 0, fun q => if q = 1 then (if q = 0 then 1 else 0) + 1
          else if q = 0 then 1 else 0, true) := by
    rfl
  constructor
  · show (runRepeatLoop scenarioThreeRun [0, 1] (k + 1 + 1) true none (fun _ => 0)).1 = _
    rw [runRepeatLoop_succ_true, h1]
    rw [runRepeatLoop_succ_true]
    have h2 : runRepeatIteration scenarioThreeRun [0, 1] (some 0)
        (fun q => if q = 1 then (if q = 0 then 1 else 0) + 1 else if q = 0 then 1 else 0) =
        ([], some 0, fun q => if q = 1 then (if q = 0 then 1 else 0) + 1
          else if q = 0 then 1 else 0, false) := by
      rfl
    rw [h2]
    simp [runRepeatLoop_cont_false]
  · show totalPassExecutions
      (runRepeatLoop scenarioThreeRun [0, 1] (k + 1 + 1) true none (fun _ => 0)).1 = 2
    rw [runRepeatLoop_succ_true, h1]
    rw [runRepeatLoop_succ_true]
    have h2 : runRepeatIteration scenarioThreeRun [0, 1] (some 0)
        (fun q => if q = 1 then (if q = 0 then 1 else 0) + 1 else if q = 0 then 1 else 0) =
        ([], some 0, fun q => if q = 1 then (if q = 0 then 1 else 0) + 1
          else if q = 0 then 1 else 0, false) := by
      rfl
    rw [h2]
    simp [runRepeatLoop_cont_false, totalPassExecutions]

/-- Witness for the amended claim C1, at the concrete iteration cap 5. -/
theorem c1FixedPointWitness :
    (runRepeatPhase scenarioThreeRun [0, 1] 5).1 = [[(0, true), (1, false)], []] ∧
      totalPassExecutions (runRepeatPhase scenarioThreeRun [0, 1] 5).1 = 2 :=
  c1FixedPointAmended 5 (by decide)

/-- Claim C5: with configuration `{level: full, enabled: {}, disabled: {}}`
the enabled pass set is exactly the §6 stable pass identifier list without
`compress-work-group-info`, and the level presets are monotone: for levels
`L1 ≤ L2` (in the order `none ≤ basic ≤ medium ≤ full`), every pass
enabled at `L1` is enabled at `L2`. -/
theorem c5LevelCascadeAndMonotonicity :
    selectedPassNames ⟨.FULL, [], [], 0⟩ =
      specPassIdentifierList.filter (fun n => n ≠ "compress-work-group-info") ∧
      ∀ l1 l2 : OptimizationLevel, l1.rank ≤ l2.rank →
        ∀ p ∈ selectedPassNames ⟨l1, [], [], 0⟩, p ∈ selectedPassNames ⟨l2, [], [], 0⟩ := by
  constructor
  · decide
  · intro l1 l2
    cases l1 <;> cases l2 <;> decide

/-- Witness for claim C5: a level pair with the hypothesis discharged
concretely (`basic ≤ full`, for the pass `single-steps`). -/
theorem c5LevelCascadeWitness :
    "single-steps" ∈ selectedPassNames ⟨.FULL, [], [], 0⟩ :=
  c5LevelCascadeAndMonotonicity.2 .BASIC .FULL (by decide) "single-steps" (by decide)

/-- Claim C6, counterexample: a repeat catalog with the single pass always
returning `true`, run with `maxOptimizationIterations = 3`, executes the
pass exactly once — iteration 2 stops at the pass because
`lastChangingOptimization` already points to it — and exits with
`iterationsLeft = 1`, so the cap warning is not emitted (with level `full`),
against the claim's 3 executions and warning. -/
theorem c6IterationCapCounterexample :
    runRepeatPhase scenarioFourRun [0] 3 = ([[(0, true)], []], 1) ∧
      totalPassExecutions (runRepeatPhase scenarioFourRun [0] 3).1 = 1 ∧
      ¬ capWarningEmitted .FULL 3 (runRepeatPhase scenarioFourRun [0] 3).2 := by
  refine ⟨?_, by decide, by decide⟩
  have h1 : runRepeatIteration scenarioFourRun [0] none (fun _ => 0) =
      ([(0, true)], some 0, fun q => if q = 0 then 1 else 0, true) := rfl
  have h2 : runRepeatIteration scenarioFourRun [0] (some 0)
      (fun q => if q = 0 then 1 else 0) =
      ([], some 0, fun q => if q = 0 then 1 else 0, false) := rfl
  show runRepeatLoop scenarioFourRun [0] (1 + 1 + 1) true none (fun _ => 0) = _
  rw [runRepeatLoop_succ_true, h1, runRepeatLoop_succ_true, h2,
    runRepeatLoop_cont_false]

/-- Claim C6 (amended): with a singleton repeat catalog of an always-true
pass and `maxOptimizationIterations = 3`, the driver executes the pass
exactly once, completes normally with `iterationsLeft = 1`, and emits no
cap warning; in general, the cap warning is emitted iff the number of
executed outer iterations equals a non-zero cap and the optimization level
is not `none`. -/
theorem c6IterationCapAmended :
    totalPassExecutions (runRepeatPhase scenarioFourRun [0] 3).1 = 1 ∧
      (runRepeatPhase scenarioFourRun [0] 3).2 = 1 ∧
      ∀ (run : Nat → Nat → Bool) (passes : List Nat) (cap : Nat)
        (level : OptimizationLevel),
        (capWarningEmitted level cap (runRepeatPhase run passes cap).2 ↔
          (runRepeatPhase run passes cap).1.length = cap ∧ 0 < cap ∧
            level ≠ OptimizationLevel.NONE) := by
  refine ⟨by decide, by decide, ?_⟩
  intro run passes cap level
  unfold capWarningEmitted runRepeatPhase
  rw [runRepeatLoop_iterationsLeft]
  have := runRepeatLoop_length_le run passes cap (!passes.isEmpty) none (fun _ => 0)
  constructor
  · rintro ⟨ha, hb, hc⟩
    exact ⟨by omega, hb, hc⟩
  · rintro ⟨ha, hb, hc⟩
    exact ⟨by omega, hb, hc⟩

/-- Witness for the amended claim C6: the cap-warning characterization at
the concrete scenario (always-true pass, cap 3, level `full`). -/
theorem c6IterationCapWitness :
    capWarningEmitted .FULL 3 (runRepeatPhase scenarioFourRun [0] 3).2 ↔
      (runRepeatPhase scenarioFourRun [0] 3).1.length = 3 ∧ 0 < 3 ∧
        OptimizationLevel.FULL ≠ OptimizationLevel.NONE :=
  c6IterationCapAmended.2.2 scenarioFourRun [0] 3 .FULL

/-- Claim C2, counterexample: for a container of type `i32*` and a
destination of the same type, `insertCalculateIndices` with `indices = []`
emits one instruction (the final `dest = container + offset` add) and then
fails: with `firstIndexIsElement = false` the computed final type
`(i32*)*` mismatches the destination type (after assigning the reference
`(container.local, ANY_ELEMENT)`); with `firstIndexIsElement = true` the
unchecked `indices.at(0)` raises `std::out_of_range` before any reference
is assigned.  In no case does it return with zero emitted instructions. -/
theorem c2EmptyIndicesCounterexample :
    insertCalculateIndices ⟨"in", .pointer (.scalar 32) .GLOBAL⟩
        ⟨"out", .pointer (.scalar 32) .GLOBAL⟩ [] false =
      ⟨1, some ("in", ANY_ELEMENT), some .TypeMismatch⟩ ∧
      insertCalculateIndices ⟨"in", .pointer (.scalar 32) .GLOBAL⟩
        ⟨"out", .pointer (.scalar 32) .GLOBAL⟩ [] true =
      ⟨1, none, some .OutOfRange⟩ := by
  decide

/-- Claim C2 (amended): for every container local of pointer-to-scalar
type, `insertCalculateIndices` with `indices = []` and
`firstIndexIsElement = false` emits exactly one instruction
(`dest = container + 0`) and sets dest's reference to
`(container.local, ANY_ELEMENT)`; it succeeds when the destination type is
a pointer to the container's type and fails with `TypeMismatch` when the
destination has the container's own type.  With
`firstIndexIsElement = true` it fails with `std::out_of_range` on the
unchecked `indices.at(0)` access, assigning no reference. -/
theorem c2EmptyIndicesAmended (w : Nat) (a : AddressSpace) (cn dn : String) :
    insertCalculateIndices ⟨cn, .pointer (.scalar w) a⟩
        ⟨dn, .pointer (.pointer (.scalar w) a) a⟩ [] false =
      ⟨1, some (cn, ANY_ELEMENT), none⟩ ∧
      insertCalculateIndices ⟨cn, .pointer (.scalar w) a⟩
        ⟨dn, .pointer (.scalar w) a⟩ [] false =
      ⟨1, some (cn, ANY_ELEMENT), some .TypeMismatch⟩ ∧
      insertCalculateIndices ⟨cn, .pointer (.scalar w) a⟩
        ⟨dn, .pointer (.scalar w) a⟩ [] true =
      ⟨1, none, some .OutOfRange⟩ := by
  refine ⟨?_, ?_, ?_⟩ <;>
    simp [insertCalculateIndices, calcIndicesLoop, computeRefIndex, calcFinalType,
      refIndexOf, DataType.beq]

/-- Witness for the amended claim C2 at concrete width, address space and
local names. -/
theorem c2EmptyIndicesWitness :
    insertCalculateIndices ⟨"in", .pointer (.scalar 32) .GLOBAL⟩
        ⟨"out", .pointer (.pointer (.scalar 32) .GLOBAL) .GLOBAL⟩ [] false =
      ⟨1, some ("in", ANY_ELEMENT), none⟩ ∧
      insertCalculateIndices ⟨"in", .pointer (.scalar 32) .GLOBAL⟩
        ⟨"out", .pointer (.scalar 32) .GLOBAL⟩ [] false =
      ⟨1, some ("in", ANY_ELEMENT), some .TypeMismatch⟩ ∧
      insertCalculateIndices ⟨"in", .pointer (.scalar 32) .GLOBAL⟩
        ⟨"out", .pointer (.scalar 32) .GLOBAL⟩ [] true =
      ⟨1, none, some .OutOfRange⟩ :=
  c2EmptyIndicesAmended 32 .GLOBAL "in" "out"

/-- Claim C3, counterexample: with exactly one literal index `0` and
`firstIndexIsElement = true`, `insertCalculateIndices` succeeds but sets
the reference index to `ANY_ELEMENT`, not to the single index `0`: the
second `if` of the selection (`Helper.cpp`, line 224) overrides the
single-index choice with `UNDEFINED_VALUE` because there is no second
index. -/
theorem c3RefIndexCounterexample :
    insertCalculateIndices ⟨"in", .pointer (.scalar 32) .GLOBAL⟩
        ⟨"out", .pointer (.scalar 32) .GLOBAL⟩ [.litI 0] true =
      ⟨1, some ("in", ANY_ELEMENT), none⟩ ∧
      ANY_ELEMENT ≠ (0 : Int) := by
  decide

/-- Claim C3 (amended): the reference index chosen by
`insertCalculateIndices` is: the second index's literal value when
`firstIndexIsElement` is set, the first index is zero and there are at
least two indices; the single index's literal value when there is exactly
one index, except that with `firstIndexIsElement` set and that index zero
the result is `ANY_ELEMENT`; and `ANY_ELEMENT` otherwise — in particular
whenever the selected index is non-literal. -/
theorem c3RefIndexAmended :
    (∀ (i0 i1 : CIndexVal) (rest : List CIndexVal), i0.isZeroInitializer = true →
        computeRefIndex (i0 :: i1 :: rest) true = .ok (refIndexOf (some i1))) ∧
      (∀ i : CIndexVal, i.isZeroInitializer = false →
        computeRefIndex [i] true = .ok (refIndexOf (some i))) ∧
      (∀ i : CIndexVal, i.isZeroInitializer = true →
        computeRefIndex [i] true = .ok ANY_ELEMENT) ∧
      (∀ i : CIndexVal, computeRefIndex [i] false = .ok (refIndexOf (some i))) ∧
      (∀ indices : List CIndexVal, indices.length ≠ 1 →
        computeRefIndex indices false = .ok ANY_ELEMENT) ∧
      (∀ (i0 : CIndexVal) (rest : List CIndexVal), i0.isZeroInitializer = false →
        rest ≠ [] → computeRefIndex (i0 :: rest) true = .ok ANY_ELEMENT) ∧
      (∀ n : Int, refIndexOf (some (.litI n)) = n) ∧
      (∀ s : String, refIndexOf (some (.localI s)) = ANY_ELEMENT) ∧
      insertCalculateIndices ⟨"in", .pointer (.scalar 32) .GLOBAL⟩
        ⟨"out", .pointer (.scalar 32) .GLOBAL⟩ [.litI 2] false =
      ⟨1, some ("in", 2), none⟩ := by
  refine ⟨?_, ?_, ?_, ?_, ?_, ?_, ?_, ?_, by decide⟩
  · intro i0 i1 rest h
    simp [computeRefIndex, h]
  · intro i h
    simp [computeRefIndex, h]
  · intro i h
    simp [computeRefIndex, h, refIndexOf]
  · intro i
    simp [computeRefIndex]
  · intro indices h
    match indices, h with
    | [], _ => simp [computeRefIndex, refIndexOf]
    | [i], h => exact absurd rfl h
    | i :: j :: rest, _ => simp [computeRefIndex, refIndexOf]
  · intro i0 rest h hr
    cases rest with
    | nil => exact absurd rfl hr
    | cons i1 rest2 => simp [computeRefIndex, h, refIndexOf]
  · intro n
    rfl
  · intro s
    rfl

/-- Witness for the amended claim C3: the second-index rule applied at the
concrete index list `[0, 3]` with `firstIndexIsElement` set. -/
theorem c3RefIndexWitness :
    computeRefIndex [.litI 0, .litI 3] true = .ok (refIndexOf (some (.litI 3))) :=
  c3RefIndexAmended.1 (.litI 0) (.litI 3) [] rfl

/-- Exclusive-or with the all-ones word of width `n` is complement:
`x ^^^ (2^n - 1) = (2^n - 1) - x` for `x < 2^n`. -/
theorem xor_two_pow_sub_one : ∀ (n x : Nat), x < 2 ^ n → x ^^^ (2 ^ n - 1) = 2 ^ n - 1 - x := by
  intro n
  induction n with
  | zero =>
    intro x hx
    have : x = 0 := by omega
    subst this
    simp
  | succ n ih =>
    intro x hx
    have hpow : (2 : Nat) ^ (n + 1) = 2 * 2 ^ n := by ring
    have h1 : (1 : Nat) ≤ 2 ^ n := Nat.one_le_two_pow
    have hdiv : (x ^^^ (2 ^ (n + 1) - 1)) / 2 = x / 2 ^^^ (2 ^ n - 1) := by
      rw [Nat.xor_div_two]
      congr 1
      omega
    have hih : x / 2 ^^^ (2 ^ n - 1) = 2 ^ n - 1 - x / 2 := ih (x / 2) (by omega)
    have hModM : (2 ^ (n + 1) - 1) % 2 = 1 := by omega
    have hmod : (x ^^^ (2 ^ (n + 1) - 1)) % 2 = 1 - x % 2 := by
      rcases Nat.mod_two_eq_zero_or_one x with h | h
      · have : (x ^^^ (2 ^ (n + 1) - 1)) % 2 = 1 := by
          rw [Nat.xor_mod_two_eq_one]
          omega
        omega
      · have : ¬((x ^^^ (2 ^ (n + 1) - 1)) % 2 = 1) := by
          rw [Nat.xor_mod_two_eq_one]
          omega
        have h2 := Nat.mod_two_eq_zero_or_one (x ^^^ (2 ^ (n + 1) - 1))
        omega
    have hdm := Nat.div_add_mod (x ^^^ (2 ^ (n + 1) - 1)) 2
    have hxdm := Nat.div_add_mod x 2
    omega

/-- Any register content produced by `toWord` lies below `2^32`. -/
theorem toWord_lt (z : Int) : toWord z < words32 := by
  unfold toWord words32
  omega

/-- The branchless `asr`/`xor`/`sub` sequence of `insertMakePositive`
followed by the `xor`/`sub` sequence of `insertRestoreSign` restores the
original 32-bit register value. -/
theorem makePositiveDyn_roundtrip (x : Nat) (hx : x < words32) :
    restoreSignDyn (makePositiveDyn x).1 (makePositiveDyn x).2 = x := by
  have hw : words32 = 2 ^ 32 := rfl
  by_cases h : x < 2 ^ 31
  · have hs : asr32 x 31 = 0 := by
      unfold asr32
      rw [if_pos h, Nat.shiftRight_eq_div_pow]
      omega
    simp only [makePositiveDyn, restoreSignDyn, hs, Nat.xor_zero]
    unfold sub32
    rw [hw] at hx ⊢
    omega
  · have hs : asr32 x 31 = 2 ^ 32 - 1 := by
      unfold asr32
      rw [if_neg h, Nat.shiftRight_eq_div_pow, Nat.shiftRight_eq_div_pow, hw]
      rw [hw] at hx
      have : x / 2 ^ 31 = 1 := by omega
      rw [this]
      norm_num
    rw [hw] at hx
    have hx1 : x ^^^ (2 ^ 32 - 1) = 2 ^ 32 - 1 - x := xor_two_pow_sub_one 32 x hx
    simp only [makePositiveDyn, restoreSignDyn, hs, hx1]
    unfold sub32
    rw [hw]
    have hd : (2 ^ 32 - 1 - x + (2 ^ 32 - (2 ^ 32 - 1) % 2 ^ 32)) % 2 ^ 32 = 2 ^ 32 - x := by
      omega
    rw [hd]
    have hx2 : (2 ^ 32 - x) ^^^ (2 ^ 32 - 1) = 2 ^ 32 - 1 - (2 ^ 32 - x) :=
      xor_two_pow_sub_one 32 (2 ^ 32 - x) (by omega)
    rw [hx2]
    omega

/-- Restoring with a zero sign mask is the identity on register values. -/
theorem restoreSignDyn_zero (x : Nat) (hx : x < words32) : restoreSignDyn x 0 = x := by
  simp only [restoreSignDyn, Nat.xor_zero]
  unfold sub32 words32 at *
  omega

/-- Lane-wise round trip for the static vector outputs of
`insertMakePositive` fed through the dynamic `insertRestoreSign`
sequence: each restored lane register equals the source lane register. -/
theorem restoreSign_lane (e : Int) (h1 : -(2 ^ 31) ≤ e) (h2 : e < 2 ^ 31) :
    restoreSignDyn (toWord (makePositiveLane e)) (toWord (isNegativeLane e)) = toWord e := by
  by_cases he : e < 0
  · simp only [makePositiveLane, isNegativeLane, if_pos he]
    have hneg : toWord (-1) = 2 ^ 32 - 1 := by
      unfold toWord
      omega
    have hw1 : toWord (wrap32 (-e)) = (-e).toNat := by
      unfold toWord wrap32
      omega
    rw [hneg, hw1]
    have hm1 : (-e).toNat < 2 ^ 32 := by omega
    have hm0 : 0 < (-e).toNat := by omega
    unfold restoreSignDyn sub32 words32
    rw [xor_two_pow_sub_one 32 (-e).toNat hm1]
    have hstep : (2 ^ 32 - 1 - (-e).toNat + (2 ^ 32 - (2 ^ 32 - 1) % 2 ^ 32)) % 2 ^ 32 =
        2 ^ 32 - (-e).toNat := by
      omega
    rw [hstep]
    unfold toWord
    omega
  · simp only [makePositiveLane, isNegativeLane, if_neg he]
    have h0 : toWord 0 = 0 := by
      unfold toWord
      omega
    rw [h0]
    exact restoreSignDyn_zero (toWord e) (toWord_lt e)

/-- For a source narrower than 32 bits, the dynamic round trip restores the
sign extension of the source register, whose low `w` bits are the original
`w`-bit lane value. -/
theorem makePositiveDynNarrow_roundtrip (w x : Nat) (hw : 0 < w) (hle : w ≤ 32)
    (hx : x < 2 ^ w) :
    restoreSignDyn (makePositiveDynNarrow w x).1 (makePositiveDynNarrow w x).2 % 2 ^ w = x := by
  have hpowle : (2 : Nat) ^ w ≤ 2 ^ 32 := Nat.pow_le_pow_right (by omega) hle
  have hpowle1 : (2 : Nat) ^ (w - 1) ≤ 2 ^ 32 := Nat.pow_le_pow_right (by omega) (by omega)
  have hsx : signExtendTo32 w x < words32 := by
    unfold signExtendTo32 words32
    split
    · omega
    · omega
  have hrt := makePositiveDyn_roundtrip (signExtendTo32 w x) hsx
  unfold makePositiveDynNarrow
  rw [hrt]
  obtain ⟨c, hc⟩ : 2 ^ w ∣ words32 - 2 ^ w :=
    Nat.dvd_sub' (Nat.pow_dvd_pow 2 hle) dvd_rfl
  unfold signExtendTo32
  split
  · exact Nat.mod_eq_of_lt hx
  · rw [hc, Nat.add_mul_mod_self_left]
    exact Nat.mod_eq_of_lt hx

/-- The lane-wise vector round trip, lifted over lane lists. -/
theorem restoreSign_lanes (ns : List Int)
    (h : ∀ e ∈ ns, -(2 ^ 31) ≤ e ∧ e < 2 ^ 31) :
    List.zipWith (fun d s => restoreSignDyn (toWord d) (toWord s))
      (ns.map makePositiveLane) (ns.map isNegativeLane) = ns.map toWord := by
  induction ns with
  | nil => rfl
  | cons e es ih =>
    simp only [List.map_cons, List.zipWith_cons_cons]
    rw [restoreSign_lane e (h e (by simp)).1 (h e (by simp)).2,
      ih (fun x hx => h x (by simp [hx]))]

/-- Claim C7: `restoreSign` is a lane-wise inverse of `makePositive` on
every integer value — for scalar literals via the static folds; for vector
literals lane-wise through the emitted `xor`/`sub` sequence; for a local
already decorated `UNSIGNED_RESULT` via the zero sign mask; and for plain
locals through the emitted `asr`/`xor`/`sub` then `xor`/`sub` sequences,
both at full 32-bit width and (low `w` bits) for sign-extended narrower
sources. -/
theorem c7RestoreSignRoundTrip :
    (∀ n : Int, -(2 ^ 31) ≤ n → n < 2 ^ 31 →
      ∃ d s, (insertMakePositive (.litS n)).dest.asLit n = some d ∧
        (insertMakePositive (.litS n)).isNegative.asLit n = some s ∧
        restoreSignLit d s = n) ∧
      (∀ ns : List Int, (∀ e ∈ ns, -(2 ^ 31) ≤ e ∧ e < 2 ^ 31) →
        ∃ ds ss, (insertMakePositive (.vecS ns)).dest = .vecV ds ∧
          (insertMakePositive (.vecS ns)).isNegative = .vecV ss ∧
          List.zipWith (fun d s => restoreSignDyn (toWord d) (toWord s)) ds ss =
            ns.map toWord) ∧
      ((insertMakePositive .localUnsigned).dest = .srcV ∧
        (insertMakePositive .localUnsigned).isNegative = .litV 0 ∧
        ∀ x : Nat, x < words32 → restoreSignDyn x (toWord 0) = x) ∧
      (∀ x : Nat, x < words32 →
        restoreSignDyn (makePositiveDyn x).1 (makePositiveDyn x).2 = x) ∧
      (∀ w x : Nat, 0 < w → w ≤ 32 → x < 2 ^ w →
        restoreSignDyn (makePositiveDynNarrow w x).1 (makePositiveDynNarrow w x).2
          % 2 ^ w = x) := by
  refine ⟨?_, ?_, ⟨rfl, rfl, ?_⟩, makePositiveDyn_roundtrip,
    makePositiveDynNarrow_roundtrip⟩
  · intro n hlo hhi
    by_cases hn : n < 0
    · refine ⟨wrap32 (-n), -1, ?_, ?_, ?_⟩
      · simp [insertMakePositive, if_pos hn, MPValue.asLit]
      · simp [insertMakePositive, if_pos hn, MPValue.asLit]
      · unfold restoreSignLit wrap32
        split
        · omega
        · omega
    · refine ⟨n, 0, ?_, ?_, ?_⟩
      · simp [insertMakePositive, if_neg hn, MPValue.asLit]
      · simp [insertMakePositive, if_neg hn, MPValue.asLit]
      · simp [restoreSignLit]
  · intro ns h
    exact ⟨ns.map makePositiveLane, ns.map isNegativeLane, rfl, rfl,
      restoreSign_lanes ns h⟩
  · intro x hx
    have h0 : toWord 0 = 0 := by
      unfold toWord
      omega
    rw [h0]
    exact restoreSignDyn_zero x hx

/-- Witness for claim C7: the dynamic round trip at the concrete register
values 5 and `2^31 + 7` (a negative `int32_t`). -/
theorem c7RestoreSignRoundTripWitness :
    restoreSignDyn (makePositiveDyn 5).1 (makePositiveDyn 5).2 = 5 ∧
      restoreSignDyn (makePositiveDyn (2 ^ 31 + 7)).1 (makePositiveDyn (2 ^ 31 + 7)).2 =
        2 ^ 31 + 7 :=
  ⟨c7RestoreSignRoundTrip.2.2.2.1 5 (by norm_num [words32]),
    c7RestoreSignRoundTrip.2.2.2.1 (2 ^ 31 + 7) (by norm_num [words32])⟩

/-- Claim C8: on a literal source `insertMakePositive` computes statically
with zero emitted instructions; `dest` denotes the two's-complement
absolute value (with sign wrap at `INT_MIN`) and `isNegative` is `-1` for
a negative source and `0` otherwise; in particular `makePositive(-7)`
yields `(7, -1)` and `makePositive(INT_MIN)` yields `(INT_MIN, -1)`. -/
theorem c8MakePositiveLiteralStatic :
    (∀ n : Int, -(2 ^ 31) ≤ n → n < 2 ^ 31 →
      ∃ d, (insertMakePositive (.litS n)).dest.asLit n = some d ∧
        d = wrap32 |n| ∧
        (insertMakePositive (.litS n)).isNegative =
          .litV (if n < 0 then -1 else 0) ∧
        (insertMakePositive (.litS n)).emitted = 0) ∧
      insertMakePositive (.litS (-7)) = ⟨.litV 7, .litV (-1), 0⟩ ∧
      insertMakePositive (.litS (-(2 ^ 31 : Int))) =
        ⟨.litV (-(2 ^ 31 : Int)), .litV (-1), 0⟩ := by
  refine ⟨?_, ?_, ?_⟩
  · intro n hlo hhi
    by_cases hn : n < 0
    · refine ⟨wrap32 (-n), ?_, ?_, ?_, ?_⟩
      · simp [insertMakePositive, if_pos hn, MPValue.asLit]
      · have : |n| = -n := abs_of_neg hn
        rw [this]
      · simp [insertMakePositive, if_pos hn]
      · simp [insertMakePositive, if_pos hn]
    · refine ⟨n, ?_, ?_, ?_, ?_⟩
      · simp [insertMakePositive, if_neg hn, MPValue.asLit]
      · have habs : |n| = n := abs_of_nonneg (by omega)
        rw [habs]
        unfold wrap32
        omega
      · simp [insertMakePositive, if_neg hn]
      · simp [insertMakePositive, if_neg hn]
  · decide
  · decide

/-- Witness for claim C8 at the concrete literal `-7`. -/
theorem c8MakePositiveLiteralWitness :
    ∃ d, (insertMakePositive (.litS (-7))).dest.asLit (-7) = some d ∧
      d = wrap32 |(-7 : Int)| ∧
      (insertMakePositive (.litS (-7))).isNegative =
        .litV (if (-7 : Int) < 0 then -1 else 0) ∧
      (insertMakePositive (.litS (-7))).emitted = 0 :=
  c8MakePositiveLiteralStatic.1 (-7) (by norm_num) (by norm_num)

/-- Claim C9: the dispatch of `insertByteSwap` accepts exactly the widths
with `numBytes ∈ {2, 4}` and raises the unsupported-width error otherwise;
but the emitted 32-bit sequence does not compute the byte reversal its own
documentation comment (`llvm.bswap.i32`) specifies: the second rotation is
by 16 instead of 8, so `byteSwap32 0x01020304 = 0x03030101` (bytes 3 and 1
duplicated, bytes 2 and 0 lost) instead of `0x04030201`, and the double
application yields `0x01010303 ≠ 0x01020304`.  The 16-bit sequence is a
correct involution. -/
theorem c9ByteSwapBug :
    insertByteSwap 32 0x01020304 = .ok 0x03030101 ∧
      byteSwap32 (byteSwap32 0x01020304) = 0x01010303 ∧
      (0x01010303 : Nat) ≠ 0x01020304 ∧
      byteSwap32 0x01020304 ≠ bswap32Spec 0x01020304 ∧
      bswap32Spec 0x01020304 = 0x04030201 ∧
      byteSwap16 (byteSwap16 0xA1B2) = 0xA1B2 ∧
      insertByteSwap 64 0 = .error "UnsupportedWidth" ∧
      insertByteSwap 8 0 = .error "UnsupportedWidth" := by
  decide

/-- The `combineAdditions` loop with a seeded accumulator is a left fold
with `add` on values and intersection on decoration bitsets. -/
theorem combineAdditionsLoop_foldl (l : List (AExpr × Decorations)) :
    ∀ p, combineAdditionsLoop (some p) l =
      some (l.foldl (fun a b => (AExpr.addE a.1 b.1, a.2 &&& b.2)) p) := by
  induction l with
  | nil => intro p; rfl
  | cons x xs ih =>
    intro p
    show combineAdditionsLoop (some (.addE p.1 x.1, p.2 &&& x.2)) xs = _
    rw [ih]
    rfl

/-- `combineAdditions` on a non-empty map left-folds from the first entry. -/
theorem combineAdditions_cons (x : AExpr × Decorations)
    (rest : List (AExpr × Decorations)) :
    combineAdditions (x :: rest) =
      some (rest.foldl (fun a b => (AExpr.addE a.1 b.1, a.2 &&& b.2)) x) := by
  show combineAdditionsLoop (some x) rest = _
  exact combineAdditionsLoop_foldl rest x

/-- Claim C4, counterexample: a `MemoryAccessRange` whose `constantOffset`
is present with value zero still fails with `Unimplemented` — the
`if(range.constantOffset)` test checks presence of the `Optional`, not
non-zeroness — although the claim says a zero constant offset succeeds. -/
theorem c4ConstantOffsetCounterexample :
    insertAddressToWorkItemSpecificOffset ⟨some 0, [(.base "a", 3)], none⟩ =
      .error .Unimplemented := by
  decide

/-- Claim C4 (amended): `insertAddressToWorkItemSpecificOffset` fails with
`Unimplemented` iff `constantOffset` is present — whatever its value, zero
included.  When it is absent (and the dynamic-part map is non-empty), it
succeeds: the dynamic parts are left-folded with `add`, intersecting the
decoration bitsets at each step, and the result is shifted left by
`typeSizeShift` when one is present. -/
theorem c4WorkItemOffsetAmended (co : Option Int) (x : AExpr × Decorations)
    (rest : List (AExpr × Decorations)) (ts : Option Nat) :
    (insertAddressToWorkItemSpecificOffset ⟨co, x :: rest, ts⟩ =
        .error .Unimplemented ↔ co.isSome) ∧
      insertAddressToWorkItemSpecificOffset ⟨none, x :: rest, ts⟩ =
        .ok (match ts with
          | some n =>
            (.shlE (rest.foldl (fun a b => (AExpr.addE a.1 b.1, a.2 &&& b.2)) x).1 n,
              (rest.foldl (fun a b => (AExpr.addE a.1 b.1, a.2 &&& b.2)) x).2)
          | none => rest.foldl (fun a b => (AExpr.addE a.1 b.1, a.2 &&& b.2)) x) := by
  have hok : ∀ ts2 : Option Nat,
      insertAddressToWorkItemSpecificOffset ⟨none, x :: rest, ts2⟩ =
        .ok (match ts2 with
          | some n =>
            (.shlE (rest.foldl (fun a b => (AExpr.addE a.1 b.1, a.2 &&& b.2)) x).1 n,
              (rest.foldl (fun a b => (AExpr.addE a.1 b.1, a.2 &&& b.2)) x).2)
          | none => rest.foldl (fun a b => (AExpr.addE a.1 b.1, a.2 &&& b.2)) x) := by
    intro ts2
    cases ts2 <;> simp [insertAddressToWorkItemSpecificOffset, combineAdditions_cons]
  constructor
  · cases co with
    | some v => simp [insertAddressToWorkItemSpecificOffset]
    | none =>
      rw [hok ts]
      simp
  · exact hok ts

/-- Witness for the amended claim C4: two dynamic parts with decorations
`6` and `3` combine to an `add` with intersected decorations `2`, then
shift left by 2. -/
theorem c4WorkItemOffsetWitness :
    (insertAddressToWorkItemSpecificOffset
        ⟨some 5, [(.base "a", 6), (.base "b", 3)], some 2⟩ =
          .error .Unimplemented ↔ (some (5 : Int)).isSome) ∧
      insertAddressToWorkItemSpecificOffset
        ⟨none, [(.base "a", 6), (.base "b", 3)], some 2⟩ =
          .ok (.shlE (.addE (.base "a") (.base "b")) 2, 6 &&& 3) :=
  c4WorkItemOffsetAmended (some 5) (.base "a", 6) [(.base "b", 3)] (some 2)

/-- The keys of the forward traversal's result store are exactly the
block's instructions, in order. -/
theorem analyzeForward_keys {I V : Type} (f : I → V → V) :
    ∀ (block : List I) (init : V), (analyzeForward f init block).map Prod.fst = block := by
  intro block
  induction block with
  | nil => intro init; rfl
  | cons i rest ih =>
    intro init
    simp only [analyzeForward, List.map_cons]
    rw [ih (f i init)]

/-- An association-list lookup succeeds for every stored key. -/
theorem lookupResult_isSome {I V : Type} [DecidableEq I] :
    ∀ (results : List (I × V)) (i : I), i ∈ results.map Prod.fst →
      ∃ v, lookupResult results i = some v := by
  intro results
  induction results with
  | nil => intro i h; simp at h
  | cons p rest ih =>
    intro i h
    unfold lookupResult
    rw [List.find?_cons]
    by_cases hp : p.1 = i
    · simp [hp]
    · simp only [List.map_cons] at h
      rcases List.mem_cons.mp h with h1 | h1
      · exact absurd h1.symm hp
      · have hd : (decide (p.1 = i)) = false := by simp [hp]
        simp only [hd]
        exact ih i h1

/-- A non-empty block makes both directed `LocalAnalysis` runs succeed. -/
theorem localAnalysis_nonempty_ok {I V : Type} [DecidableEq I]
    (direction : AnalysisDirection) (f : I → V → V) (init : V) (block : List I)
    (h : block ≠ []) : ∃ r, localAnalysis direction f init block = .ok r := by
  have hhead : ∃ b, block.head? = some b := by
    cases block with
    | nil => exact absurd rfl h
    | cons b bs => exact ⟨b, rfl⟩
  obtain ⟨b, hb⟩ := hhead
  have hlast : block.getLast? = some (block.getLast h) := List.getLast?_eq_getLast block h
  have hbmem : b ∈ block := by
    cases block with
    | nil => exact absurd rfl h
    | cons x xs => simp at hb; simp [hb]
  have hlmem : block.getLast h ∈ block := List.getLast_mem h
  cases direction with
  | FORWARD =>
    obtain ⟨v1, hv1⟩ := lookupResult_isSome (analyzeForward f init block) b
      (by rw [analyzeForward_keys]; exact hbmem)
    obtain ⟨v2, hv2⟩ := lookupResult_isSome (analyzeForward f init block) (block.getLast h)
      (by rw [analyzeForward_keys]; exact hlmem)
    refine ⟨⟨analyzeForward f init block, v1, v2⟩, ?_⟩
    simp [localAnalysis, hb, hlast, hv1, hv2]
  | BACKWARD =>
    have hrev : ∃ r rs, block.reverse = r :: rs := by
      cases hrb : block.reverse with
      | nil => exact absurd (by simpa using hrb) h
      | cons r rs => exact ⟨r, rs, rfl⟩
    obtain ⟨r, rs, hrb⟩ := hrev
    have hres : analyzeBackward f init block = .ok (analyzeForward f init (r :: rs)) := by
      unfold analyzeBackward
      rw [hrb]
    obtain ⟨v1, hv1⟩ := lookupResult_isSome (analyzeForward f init (r :: rs)) b
      (by rw [analyzeForward_keys]; rw [← hrb]; exact List.mem_reverse.mpr hbmem)
    obtain ⟨v2, hv2⟩ := lookupResult_isSome (analyzeForward f init (r :: rs)) (block.getLast h)
      (by rw [analyzeForward_keys]; rw [← hrb]; exact List.mem_reverse.mpr hlmem)
    refine ⟨⟨analyzeForward f init (r :: rs), v1, v2⟩, ?_⟩
    simp [localAnalysis, hres, hb, hlast, hv1, hv2]

/-- Claim C10: `LocalAnalysis::operator()` requires a non-empty basic
block.  On an empty block the forward run fails at the
`results.at(block.begin().get())` lookup and the backward run fails at
the `previousInBlock` step from the end cursor; on every non-empty block
both directions succeed. -/
theorem c10LocalAnalysisNonEmptyBlock :
    (∀ (V : Type) (f : Nat → V → V) (init : V),
        localAnalysis .FORWARD f init ([] : List Nat) =
          .error "unordered_map::at: key not found") ∧
      (∀ (V : Type) (f : Nat → V → V) (init : V),
        localAnalysis .BACKWARD f init ([] : List Nat) =
          .error "invalid cursor before block begin") ∧
      (∀ (I V : Type) (_inst : DecidableEq I) (direction : AnalysisDirection)
        (f : I → V → V) (init : V) (block : List I), block ≠ [] →
          ∃ r, localAnalysis direction f init block = .ok r) := by
  refine ⟨fun V f init => rfl, fun V f init => rfl, ?_⟩
  intro I V _inst direction f init block h
  exact localAnalysis_nonempty_ok direction f init block h

/-- Witness for claim C10: the forward and backward analyses of the
concrete two-instruction block `[10, 20]` under the counting transfer
function succeed. -/
theorem c10LocalAnalysisWitness :
    ∃ r, localAnalysis .FORWARD (fun _ v => v + 1) (0 : Nat) [10, 20] = .ok r :=
  c10LocalAnalysisNonEmptyBlock.2.2 Nat Nat inferInstance .FORWARD
    (fun _ v => v + 1) 0 [10, 20] (by simp)
